import Mathlib

/-!
Verification of the JeuxBoard role-based project tracker.

The definitions below are a shallow embedding of the repository's
authorization and mutation logic:

* `canEditField`, `fieldPermissions` — `src/components/ModuleTable.tsx`
* `handleEditModule` / `savePayload`  — the module edit/save flow of
  `ModuleTable.tsx` (full-record update payloads)
* `menuItems`, `sidebarShows`        — `src/components/Sidebar.tsx`
* `addProjectPageAllowed`            — the `RoleProtected` gate in `src/App.tsx`
* `projectsPageAddButton`            — the admin-only button in `Projects.tsx`
* the `*Policy` functions            — the row-level-security USING/WITH CHECK
  clauses of `supabase/migrations/20250805103937_little_queen.sql`
* `deleteProject`                    — the ON DELETE CASCADE foreign keys of
  `project_modules` and `project_members`
* `handleSaveUser`                   — `src/components/Members.tsx`
* `fetchAssignableUsers`             — the `fetchUsers` query of `ModuleTable.tsx`
-/

namespace JeuxBoard

/-- SQL three-valued equality on nullable columns collapsed to a Bool filter:
a comparison with NULL is never satisfied ( NULL = NULL is not true in a
WHERE / USING clause). -/
def sqlEq (a b : Option String) : Bool :=
  match a, b with
  | some x, some y => x == y
  | _, _ => false

/-- The acting user's profile as `useAuth` exposes it: an application user id
and a role string (stored as open text in the database). -/
structure Profile where
  id : String
  role : String
deriving DecidableEq, Repr

/-- The `Module` interface of `ModuleTable.tsx` (the joined `users` name
decoration is omitted: it is display-only and read by no permission check). -/
structure Module where
  id : String
  project_id : String
  module_name : String
  platform_stack : String
  assigned_dev_id : Option String
  design_locked_date : Option String
  dev_start_date : Option String
  self_qa_date : Option String
  lead_signoff_date : Option String
  pm_review_date : Option String
  cto_review_status : String
  client_ready_status : String
  status : String
  eta : Option String
  sprint : String
  notes : Option String
  created_at : String
  updated_at : String
deriving DecidableEq, Repr

/-- The `fieldPermissions` table inside `canEditField`
(`ModuleTable.tsx`, lines 99 to 114); an unknown field maps to `[]`,
mirroring `fieldPermissions[field] || []`. -/
def fieldPermissions (field : String) : List String :=
  match field with
  | "module_name" => ["admin"]
  | "platform_stack" => ["admin"]
  | "assigned_dev_id" => ["admin"]
  | "design_locked_date" => ["designer", "admin"]
  | "dev_start_date" => ["dev", "admin"]
  | "self_qa_date" => ["dev", "admin"]
  | "lead_signoff_date" => ["lead", "admin"]
  | "pm_review_date" => ["pm", "admin"]
  | "cto_review_status" => ["cto", "admin"]
  | "client_ready_status" => ["pm", "admin"]
  | "status" => ["dev", "pm", "admin"]
  | "eta" => ["pm", "admin"]
  | "sprint" => ["pm", "admin"]
  | "notes" => ["admin", "pm", "dev", "cto", "lead", "designer"]
  | _ => []

/-- `canEditField` of `ModuleTable.tsx` (lines 96 to 124): with no profile the
check is false; for `dev_start_date` and `self_qa_date` the assigned developer
is additionally granted (`profile.id === module.assigned_dev_id`); otherwise
the decision is membership of the actor's role in the field's allow-list. -/
def canEditField (profile : Option Profile) (field : String) (m : Module) : Bool :=
  match profile with
  | none => false
  | some p =>
    let allowedRoles := fieldPermissions field
    if field = "dev_start_date" ∨ field = "self_qa_date" then
      allowedRoles.contains p.role || m.assigned_dev_id == some p.id
    else
      allowedRoles.contains p.role

/-- `handleEditModule` (`ModuleTable.tsx`, lines 156 to 159): editing starts by
capturing the whole module record into `editData`. -/
def handleEditModule (m : Module) : Module := m

/-- The update payload `handleSaveModule` issues (`ModuleTable.tsx`, lines 161
to 183): the spread of the full `editData` with a refreshed `updated_at`. -/
def savePayload (editData : Module) (now : String) : Module :=
  { editData with updated_at := now }

/-- Applying a full-record UPDATE at the store: the row matched by the
`eq('id', editingId)` filter keeps its key and every payload column replaces
the current column value (the payload spread names every column). -/
def applyUpdate (payload current : Module) : Module :=
  { id := current.id
    project_id := payload.project_id
    module_name := payload.module_name
    platform_stack := payload.platform_stack
    assigned_dev_id := payload.assigned_dev_id
    design_locked_date := payload.design_locked_date
    dev_start_date := payload.dev_start_date
    self_qa_date := payload.self_qa_date
    lead_signoff_date := payload.lead_signoff_date
    pm_review_date := payload.pm_review_date
    cto_review_status := payload.cto_review_status
    client_ready_status := payload.client_ready_status
    status := payload.status
    eta := payload.eta
    sprint := payload.sprint
    notes := payload.notes
    created_at := payload.created_at
    updated_at := payload.updated_at }

/-- The `menuItems` array of `Sidebar.tsx`: page id paired with the roles the
entry is shown to. -/
def menuItems : List (String × List String) :=
  [("dashboard", ["admin", "dev", "pm", "cto", "lead", "designer"]),
   ("projects", ["admin", "dev", "pm", "cto", "lead", "designer"]),
   ("add-project", ["admin", "pm"]),
   ("members", ["admin"]),
   ("analytics", ["admin", "pm", "cto"])]

/-- Whether the sidebar offers a page to a role: the `filteredItems` filter of
`Sidebar.tsx` keeps an item when `item.roles.includes(profile.role)`. -/
def sidebarShows (role page : String) : Bool :=
  menuItems.any (fun it => it.1 == page && it.2.contains role)

/-- The `RoleProtected allowedRoles=['admin']` gate around the add-project
page in `renderPage` of `App.tsx` (lines 60 to 68). -/
def addProjectPageAllowed (role : String) : Bool :=
  (["admin"] : List String).contains role

/-- The Add Project button of `Projects.tsx` is rendered only when
`profile?.role === 'admin'`. -/
def projectsPageAddButton (role : String) : Bool :=
  role == "admin"

/-- A row of the `users` table (migration `20250805103937_little_queen.sql`):
`auth_id` is a nullable reference into the external auth schema. -/
structure UserRow where
  id : String
  auth_id : Option String
  name : String
  email : String
  role : String
  updated_at : String
deriving DecidableEq, Repr

/-- A row of the `projects` table. -/
structure ProjectRow where
  id : String
  title : String
  stack : String
  sprint : String
  notes : Option String
  status : String
  created_by : Option String
deriving DecidableEq, Repr

/-- A row of the `project_modules` table: `project_id` and `assigned_dev_id`
are nullable foreign keys. -/
structure ModuleRow where
  id : String
  project_id : Option String
  module_name : String
  platform_stack : String
  assigned_dev_id : Option String
  status : String
  sprint : String
  notes : Option String
deriving DecidableEq, Repr

/-- A row of the `project_members` table. -/
structure ProjectMemberRow where
  id : String
  project_id : Option String
  user_id : Option String
  role_in_project : String
deriving DecidableEq, Repr

/-- The persisted state the row-level-security clauses read. -/
structure DB where
  users : List UserRow
  projects : List ProjectRow
  project_modules : List ModuleRow
  project_members : List ProjectMemberRow
deriving DecidableEq, Repr

/-- USING clause of the users policy named Users can update their own
profile: `auth_id = auth.uid()`, with no admin alternative and no column
restriction. -/
def usersUpdatePolicy (uid : String) (target : UserRow) : Bool :=
  sqlEq target.auth_id (some uid)

/-- USING clause of the users policy named Only admins can delete users:
there exists a users row whose `auth_id` is the caller's uid with role
admin. -/
def usersDeletePolicy (db : DB) (uid : String) : Bool :=
  db.users.any (fun u => sqlEq u.auth_id (some uid) && u.role == "admin")

/-- USING clause of the projects SELECT policy: the caller's users row has
role admin, pm or cto, or a project_members row links that user to the
project. -/
def projectsSelectPolicy (db : DB) (uid : String) (p : ProjectRow) : Bool :=
  db.users.any (fun u =>
    sqlEq u.auth_id (some uid) &&
    ((["admin", "pm", "cto"] : List String).contains u.role ||
      db.project_members.any (fun l =>
        sqlEq l.project_id (some p.id) && sqlEq l.user_id (some u.id))))

/-- WITH CHECK clause of the projects policy named Only admins can create
projects. -/
def projectsInsertPolicy (db : DB) (uid : String) : Bool :=
  db.users.any (fun u => sqlEq u.auth_id (some uid) && u.role == "admin")

/-- USING clause of the project_modules policy named Role-based module
updates (migration lines 283 to 302): admin always; pm when a member of the
module's project; dev when assigned to the module; lead, cto and designer
always. -/
def moduleUpdatePolicy (db : DB) (uid : String) (m : ModuleRow) : Bool :=
  db.users.any (fun u =>
    sqlEq u.auth_id (some uid) &&
    (u.role == "admin" ||
      (u.role == "pm" && db.project_members.any (fun l =>
        sqlEq l.project_id m.project_id && sqlEq l.user_id (some u.id))) ||
      (u.role == "dev" && sqlEq (some u.id) m.assigned_dev_id) ||
      u.role == "lead" || u.role == "cto" || u.role == "designer"))

/-- DELETE FROM projects WHERE id = pid under the schema's ON DELETE CASCADE
foreign keys: rows of project_modules and project_members whose `project_id`
equals the deleted id are removed with the project. -/
def deleteProject (db : DB) (pid : String) : DB :=
  { db with
    projects := db.projects.filter (fun p => !(p.id == pid))
    project_modules := db.project_modules.filter (fun m => !(sqlEq m.project_id (some pid)))
    project_members := db.project_members.filter (fun l => !(sqlEq l.project_id (some pid))) }

/-- Whether a nullable foreign key into projects is satisfied: NULL
references nothing, a non-null value must name a live project row. -/
def referencesLive (projects : List ProjectRow) (fk : Option String) : Bool :=
  match fk with
  | none => true
  | some q => projects.any (fun p => p.id == q)

/-- The fields `handleSaveUser` of `Members.tsx` (lines 113 to 136) writes:
name and role from the edit buffer. -/
structure UserEditData where
  name : String
  role : String
deriving DecidableEq, Repr

/-- The update `handleSaveUser` issues against the target users row: name and
role are replaced and updated_at refreshed; no permission check guards the
payload itself. -/
def handleSaveUser (d : UserEditData) (now : String) (target : UserRow) : UserRow :=
  { target with name := d.name, role := d.role, updated_at := now }

/-- The `fetchUsers` query of `ModuleTable.tsx` (lines 81 to 94): users whose
role is in ('dev', 'lead'). Only these users are offered in the
assigned_dev_id select of `renderEditableCell`, besides the empty Unassigned
option. -/
def fetchAssignableUsers (db : DB) : List UserRow :=
  db.users.filter (fun u => (["dev", "lead"] : List String).contains u.role)

/-- The option values of the assigned_dev_id select in `renderEditableCell`
(`ModuleTable.tsx`, lines 251 to 263): the empty Unassigned value followed by
the fetched users' ids. -/
def assigneeOptions (db : DB) : List String :=
  "" :: (fetchAssignableUsers db).map (fun u => u.id)

/-- A project_modules row as the presentation layer sees it, for feeding the
application-level `canEditField` (fields the check never reads are filled
with their fetched values; a NULL project_id renders as the empty string). -/
def rowToModule (r : ModuleRow) : Module :=
  { id := r.id
    project_id := r.project_id.getD ""
    module_name := r.module_name
    platform_stack := r.platform_stack
    assigned_dev_id := r.assigned_dev_id
    design_locked_date := none
    dev_start_date := none
    self_qa_date := none
    lead_signoff_date := none
    pm_review_date := none
    cto_review_status := "pending"
    client_ready_status := "pending"
    status := r.status
    eta := none
    sprint := r.sprint
    notes := r.notes
    created_at := ""
    updated_at := "" }

/-! Helper lemmas shared by the claim theorems. -/

theorem sqlEq_some_right (a : Option String) (y : String) :
    sqlEq a (some y) = true ↔ a = some y := by
  cases a <;> simp [sqlEq]

theorem sqlEq_eq_false_iff (a : Option String) (y : String) :
    sqlEq a (some y) = false ↔ a ≠ some y := by
  rw [← Bool.not_eq_true, sqlEq_some_right]

theorem canEditField_some (p : Profile) (field : String) (m : Module) :
    canEditField (some p) field m =
      ((fieldPermissions field).contains p.role ||
        ((field == "dev_start_date" || field == "self_qa_date") &&
          (m.assigned_dev_id == some p.id))) := by
  unfold canEditField
  by_cases h1 : field = "dev_start_date" <;> by_cases h2 : field = "self_qa_date" <;>
    simp [h1, h2]

theorem fieldPermissions_subset (field r : String) (h : r ∈ fieldPermissions field) :
    r = "admin" ∨ r = "dev" ∨ r = "pm" ∨ r = "cto" ∨ r = "lead" ∨ r = "designer" := by
  unfold fieldPermissions at h
  split at h
  all_goals simp only [List.mem_cons, List.not_mem_nil, or_false] at h
  all_goals tauto

theorem canEditField_denied (p : Profile) (field : String) (m : Module)
    (h1 : p.role ∉ fieldPermissions field)
    (h2 : ¬((field = "dev_start_date" ∨ field = "self_qa_date") ∧
        m.assigned_dev_id = some p.id)) :
    canEditField (some p) field m = false := by
  rw [canEditField_some]
  have hc : (fieldPermissions field).contains p.role = false := by
    simpa using h1
  by_cases hb : m.assigned_dev_id = some p.id
  · have hne := fun hcarve => h2 ⟨hcarve, hb⟩
    have hne1 : field ≠ "dev_start_date" := fun hx => hne (Or.inl hx)
    have hne2 : field ≠ "self_qa_date" := fun hx => hne (Or.inr hx)
    have hb1 : (field == "dev_start_date") = false := by simpa using hne1
    have hb2 : (field == "self_qa_date") = false := by simpa using hne2
    rw [hc, hb1, hb2]
    rfl
  · have hb0 : (m.assigned_dev_id == some p.id) = false := by simpa using hb
    rw [hc, hb0, Bool.and_false, Bool.or_false]

theorem canEditField_assignee (p : Profile) (field : String) (m : Module)
    (hf : field = "dev_start_date" ∨ field = "self_qa_date")
    (ha : m.assigned_dev_id = some p.id) :
    canEditField (some p) field m = true := by
  rw [canEditField_some]
  rcases hf with hf | hf <;> simp [hf, ha]

/-- A module used for concrete evaluations: assigned to user u2. -/
def moduleA : Module :=
  { id := "m1"
    project_id := "p1"
    module_name := "Auth Service"
    platform_stack := "React"
    assigned_dev_id := some "u2"
    design_locked_date := none
    dev_start_date := none
    self_qa_date := none
    lead_signoff_date := none
    pm_review_date := none
    cto_review_status := "pending"
    client_ready_status := "pending"
    status := "not_started"
    eta := none
    sprint := "S1"
    notes := none
    created_at := "t0"
    updated_at := "t0" }

/-! Claim C1. -/

/-- C1, counterexample: the claim asserts that a developer who is not the
assigned developer gets false for dev_start_date, but the allow-list for
dev_start_date contains the dev role, so a dev not assigned to the module
(user u1; moduleA is assigned to u2) is still granted. -/
theorem C1_unassigned_dev_grant :
    (Profile.mk "u1" "dev").role = "dev" ∧
    moduleA.assigned_dev_id ≠ some "u1" ∧
    canEditField (some (Profile.mk "u1" "dev")) "dev_start_date" moduleA = true := by
  decide

/-- C1, amended: canEditField denies every (role, field) pair outside the
allow-list unless the field is dev_start_date or self_qa_date and the actor is
the assigned developer, in which case it grants regardless of role; a dev who
is not the assigned developer is nevertheless granted dev_start_date and
self_qa_date, because dev itself is in those fields' allow-lists. -/
theorem C1_field_permission_table (p : Profile) (field : String) (m : Module) :
    (p.role ∉ fieldPermissions field →
      ¬((field = "dev_start_date" ∨ field = "self_qa_date") ∧
          m.assigned_dev_id = some p.id) →
      canEditField (some p) field m = false)
    ∧ ((field = "dev_start_date" ∨ field = "self_qa_date") →
      m.assigned_dev_id = some p.id → canEditField (some p) field m = true)
    ∧ (p.role = "dev" → (field = "dev_start_date" ∨ field = "self_qa_date") →
      canEditField (some p) field m = true) := by
  refine ⟨canEditField_denied p field m, canEditField_assignee p field m, ?_⟩
  intro hr hf
  rw [canEditField_some, hr]
  rcases hf with hf | hf <;> subst hf <;> simp [fieldPermissions]

/-! Claim C4. -/

/-- C4, counterexample: the claim asserts that an actor with a role outside
the six-role set can edit no field of any module, but the assignee carve-out
ignores the role entirely: a user with the orphaned role ghost who is the
assigned developer of moduleA (user u2) is granted dev_start_date. -/
theorem C4_orphan_assignee_grant :
    (Profile.mk "u2" "ghost").role ∉ ["admin", "dev", "pm", "cto", "lead", "designer"]
    ∧ canEditField (some (Profile.mk "u2" "ghost")) "dev_start_date" moduleA = true := by
  decide

/-- C4, amended: with no profile every check is false, and an actor whose
role lies outside the closed six-role set is denied every field of every
module, except that dev_start_date and self_qa_date are still granted when
the actor is the module's assigned developer; the check always returns a
boolean (it is a total function). -/
theorem C4_unknown_role_denied (p : Profile) (field : String) (m : Module) :
    canEditField none field m = false
    ∧ (p.role ∉ ["admin", "dev", "pm", "cto", "lead", "designer"] →
      ¬((field = "dev_start_date" ∨ field = "self_qa_date") ∧
          m.assigned_dev_id = some p.id) →
      canEditField (some p) field m = false)
    ∧ (p.role ∉ ["admin", "dev", "pm", "cto", "lead", "designer"] →
      (field = "dev_start_date" ∨ field = "self_qa_date") →
      m.assigned_dev_id = some p.id →
      canEditField (some p) field m = true) := by
  refine ⟨rfl, ?_, fun _ => canEditField_assignee p field m⟩
  intro hrole hcarve
  refine canEditField_denied p field m (fun hx => ?_) hcarve
  rcases fieldPermissions_subset field p.role hx with h | h | h | h | h | h <;>
    simp [h] at hrole

/-! Claim C5. -/

/-- C5, confirmed: editing captures the whole module, the save payload is that
capture with a refreshed updated_at, and applying the full-record update
replaces every column of the current row with the captured values, so any
concurrent change made to the row between edit start and save is
overwritten (the result does not depend on `concurrent` beyond its key). -/
theorem C5_full_record_update (m0 : Module) (now : String) (concurrent : Module) :
    savePayload (handleEditModule m0) now = { m0 with updated_at := now }
    ∧ applyUpdate (savePayload (handleEditModule m0) now) concurrent =
        { m0 with id := concurrent.id, updated_at := now }
    ∧ (applyUpdate (savePayload (handleEditModule m0) now) concurrent).notes
        = m0.notes := by
  exact ⟨rfl, rfl, rfl⟩

/-! Claim C8. -/

/-- C8, confirmed: the notes field is editable by every one of the six
defined roles. -/
theorem C8_notes_universal (p : Profile) (m : Module)
    (h : p.role ∈ ["admin", "dev", "pm", "cto", "lead", "designer"]) :
    canEditField (some p) "notes" m = true := by
  rw [canEditField_some]
  have hc : (fieldPermissions "notes").contains p.role = true := by
    simp only [List.mem_cons, List.not_mem_nil, or_false] at h
    rcases h with h | h | h | h | h | h <;> rw [h] <;> decide
  rw [hc, Bool.true_or]

/-- C8, witness: a designer can edit notes of moduleA. -/
theorem C8_notes_witness :
    canEditField (some (Profile.mk "u9" "designer")) "notes" moduleA = true :=
  C8_notes_universal (Profile.mk "u9" "designer") moduleA (by decide)

/-! Claim C10. -/

/-- C10, confirmed: the users fetched as assignee candidates all have role
dev or lead, and every non-empty option value of the assignee select is the
id of a user of the store whose role is dev or lead. -/
theorem C10_assignee_candidates (db : DB) :
    (∀ u ∈ fetchAssignableUsers db, u.role = "dev" ∨ u.role = "lead")
    ∧ (∀ i ∈ assigneeOptions db, i ≠ "" →
        ∃ u ∈ db.users, u.id = i ∧ (u.role = "dev" ∨ u.role = "lead")) := by
  constructor
  · intro u hu
    have hfil := (List.mem_filter.mp hu).2
    simpa using hfil
  · intro i hi hne
    rcases List.mem_cons.mp hi with h0 | hmap
    · exact absurd h0 hne
    · rcases List.mem_map.mp hmap with ⟨u, hu, hid⟩
      have hu2 := List.mem_filter.mp hu
      refine ⟨u, hu2.1, hid, ?_⟩
      simpa using hu2.2

/-! Claim C6. -/

/-- A store holding a single pm user whose auth uid is a1. -/
def dbPM : DB :=
  { users := [⟨"u1", some "a1", "Paula", "paula@jeux.dev", "pm", "t0"⟩]
    projects := []
    project_modules := []
    project_members := [] }

/-- C6, counterexample: the claim asserts the create-project operation is
offered and enforced identically at every layer, but the sidebar navigation
entry for add-project is shown to role pm as well, while the page gate and
the store insert policy deny pm. -/
theorem C6_pm_sidebar_mismatch :
    sidebarShows "pm" "add-project" = true
    ∧ addProjectPageAllowed "pm" = false
    ∧ projectsInsertPolicy dbPM "a1" = false := by
  decide

/-- C6, amended: the add-project page gate, the Projects page button and the
store insert policy all permit exactly role admin, but the sidebar navigation
entry is shown to both admin and pm, so a pm is offered the entry and then
stopped by the page gate. -/
theorem C6_create_project_gates (role uid : String) (db : DB) :
    (addProjectPageAllowed role = true ↔ role = "admin")
    ∧ (projectsPageAddButton role = true ↔ role = "admin")
    ∧ (sidebarShows role "add-project" = true ↔ (role = "admin" ∨ role = "pm"))
    ∧ (projectsInsertPolicy db uid = true ↔
        ∃ u ∈ db.users, u.auth_id = some uid ∧ u.role = "admin") := by
  refine ⟨?_, ?_, ?_, ?_⟩
  · simp [addProjectPageAllowed]
  · simp [projectsPageAddButton]
  · simp [sidebarShows, menuItems]
  · simp [projectsInsertPolicy, List.any_eq_true, sqlEq_some_right]

/-! Claim C7. -/

/-- C7, confirmed: the projects SELECT policy grants exactly the callers with
a users row matching the auth uid whose role is admin, pm or cto, or for whom
a project_members row links that user to the project; everything else is
denied. -/
theorem C7_read_project_policy (db : DB) (uid : String) (p : ProjectRow) :
    projectsSelectPolicy db uid p = true ↔
      ∃ u ∈ db.users, u.auth_id = some uid ∧
        (u.role = "admin" ∨ u.role = "pm" ∨ u.role = "cto" ∨
          ∃ l ∈ db.project_members, l.project_id = some p.id ∧ l.user_id = some u.id) := by
  simp [projectsSelectPolicy, List.any_eq_true, sqlEq_some_right]
  constructor
  · rintro ⟨u, hu, hauth, h | ⟨l, hl, hlp, hlu⟩⟩
    · exact ⟨u, hu, hauth, by tauto⟩
    · exact ⟨u, hu, hauth, Or.inr (Or.inr (Or.inr ⟨l, hl, hlp, hlu⟩))⟩
  · rintro ⟨u, hu, hauth, h | h | h | ⟨l, hl, hlp, hlu⟩⟩
    · exact ⟨u, hu, hauth, Or.inl (by tauto)⟩
    · exact ⟨u, hu, hauth, Or.inl (by tauto)⟩
    · exact ⟨u, hu, hauth, Or.inl (by tauto)⟩
    · exact ⟨u, hu, hauth, Or.inr ⟨l, hl, hlp, hlu⟩⟩

/-! Claim C2. -/

/-- A module row of project p1 assigned to user u2. -/
def mRowB : ModuleRow :=
  { id := "m1"
    project_id := some "p1"
    module_name := "Auth Service"
    platform_stack := "React"
    assigned_dev_id := some "u2"
    status := "not_started"
    sprint := "S1"
    notes := none }

/-- A store holding a single dev user u1 (auth uid a1) who is not assigned to
mRowB and is not a member of its project. -/
def dbDev : DB :=
  { users := [⟨"u1", some "a1", "Dana", "dana@jeux.dev", "dev", "t0"⟩]
    projects := [⟨"p1", "Gateway", "React", "S1", none, "not_started", none⟩]
    project_modules := [mRowB]
    project_members := [] }

/-- C2, counterexample: the layers disagree. The application-level table
grants the dev u1 the status field of mRowB (and notes), but the store's
row-update policy denies u1 because a dev is only permitted on modules
assigned to them. -/
theorem C2_layers_disagree :
    canEditField (some (Profile.mk "u1" "dev")) "status" (rowToModule mRowB) = true
    ∧ moduleUpdatePolicy dbDev "a1" mRowB = false := by
  decide

/-- C2, amended: only one direction of the claimed agreement holds. Whenever
the store's row-update policy permits, the matched users row's role also has
some application-level editable field (notes is granted to every role the
policy accepts); the converse fails, as the counterexample shows. -/
theorem C2_store_grant_implies_field_grant (db : DB) (uid : String) (m : ModuleRow)
    (h : moduleUpdatePolicy db uid m = true) :
    ∃ u ∈ db.users, u.auth_id = some uid ∧
      canEditField (some (Profile.mk u.id u.role)) "notes" (rowToModule m) = true := by
  unfold moduleUpdatePolicy at h
  rcases List.any_eq_true.mp h with ⟨u, hu, hcond⟩
  rw [Bool.and_eq_true] at hcond
  obtain ⟨hauth, hdisj⟩ := hcond
  refine ⟨u, hu, (sqlEq_some_right _ _).mp hauth, ?_⟩
  have hrole : u.role = "admin" ∨ u.role = "pm" ∨ u.role = "dev" ∨
      u.role = "lead" ∨ u.role = "cto" ∨ u.role = "designer" := by
    simp only [Bool.or_eq_true, Bool.and_eq_true, beq_iff_eq] at hdisj
    tauto
  rw [canEditField_some]
  have hc : (fieldPermissions "notes").contains u.role = true := by
    rcases hrole with h | h | h | h | h | h <;> rw [h] <;> decide
  rw [hc, Bool.true_or]

/-- A store holding a single admin user whose auth uid is a0. -/
def dbAdmin : DB :=
  { users := [⟨"u0", some "a0", "Ada", "ada@jeux.dev", "admin", "t0"⟩]
    projects := []
    project_modules := [mRowB]
    project_members := [] }

/-- C2, witness: in a store holding an admin the row-update policy permits,
and the implied application-level grant is produced. -/
theorem C2_store_grant_witness :
    ∃ u ∈ dbAdmin.users, u.auth_id = some "a0" ∧
      canEditField (some (Profile.mk u.id u.role)) "notes" (rowToModule mRowB) = true :=
  C2_store_grant_implies_field_grant dbAdmin "a0" mRowB (by decide)

/-! Claim C3. -/

/-- An admin user whose auth uid is aa. -/
def aliceRow : UserRow :=
  { id := "u1", auth_id := some "aa", name := "Alice"
    email := "alice@jeux.dev", role := "admin", updated_at := "t0" }

/-- A dev user whose auth uid is ab. -/
def bobRow : UserRow :=
  { id := "u2", auth_id := some "ab", name := "Bob"
    email := "bob@jeux.dev", role := "dev", updated_at := "t0" }

/-- C3, counterexample: the store's update policy matches only the target's
own auth uid, so the admin Alice is denied an update of Bob's row, while Bob
himself is permitted and the save payload replaces the role field, letting
the non-admin Bob change his own role to admin. -/
theorem C3_user_update_mismatch :
    aliceRow.role = "admin"
    ∧ usersUpdatePolicy "aa" bobRow = false
    ∧ bobRow.role = "dev"
    ∧ usersUpdatePolicy "ab" bobRow = true
    ∧ (handleSaveUser ⟨"Bob", "admin"⟩ "t1" bobRow).role = "admin" := by
  decide

/-- C3, amended: a users row is updatable at the store exactly by the user
themselves (auth uid match, regardless of any admin role), the issued update
replaces name and role and keeps id and email, and deletion is permitted
exactly when the caller has a users row with role admin. -/
theorem C3_user_row_policies (uid now : String) (t : UserRow) (db : DB)
    (d : UserEditData) :
    (usersUpdatePolicy uid t = true ↔ t.auth_id = some uid)
    ∧ (handleSaveUser d now t).name = d.name
    ∧ (handleSaveUser d now t).role = d.role
    ∧ (handleSaveUser d now t).id = t.id
    ∧ (handleSaveUser d now t).email = t.email
    ∧ (usersDeletePolicy db uid = true ↔
        ∃ u ∈ db.users, u.auth_id = some uid ∧ u.role = "admin") := by
  refine ⟨sqlEq_some_right _ _, rfl, rfl, rfl, rfl, ?_⟩
  simp [usersDeletePolicy, List.any_eq_true, sqlEq_some_right]

/-! Claim C9. -/

/-- C9, confirmed: deleting a project removes exactly the modules and member
links that reference it, the project itself is gone, and when every module
and member link referenced a live project before, the same holds after, so no
retained row references a non-existent project. -/
theorem C9_cascade_delete (db : DB) (pid : String)
    (hmods : ∀ m ∈ db.project_modules, referencesLive db.projects m.project_id = true)
    (hmems : ∀ l ∈ db.project_members, referencesLive db.projects l.project_id = true) :
    (∀ m ∈ (deleteProject db pid).project_modules, m.project_id ≠ some pid)
    ∧ (∀ l ∈ (deleteProject db pid).project_members, l.project_id ≠ some pid)
    ∧ (∀ q ∈ (deleteProject db pid).projects, q.id ≠ pid)
    ∧ (∀ m ∈ db.project_modules, m.project_id ≠ some pid →
        m ∈ (deleteProject db pid).project_modules)
    ∧ (∀ l ∈ db.project_members, l.project_id ≠ some pid →
        l ∈ (deleteProject db pid).project_members)
    ∧ (∀ m ∈ (deleteProject db pid).project_modules,
        referencesLive (deleteProject db pid).projects m.project_id = true)
    ∧ (∀ l ∈ (deleteProject db pid).project_members,
        referencesLive (deleteProject db pid).projects l.project_id = true) := by
  have hfk : ∀ (fk : Option String), referencesLive db.projects fk = true →
      ¬ fk = some pid →
      referencesLive (deleteProject db pid).projects fk = true := by
    intro fk hlive hne
    cases fk with
    | none => rfl
    | some q =>
      have hq : q ≠ pid := fun hx => hne (by rw [hx])
      rcases List.any_eq_true.mp hlive with ⟨pr, hpr, hid⟩
      refine List.any_eq_true.mpr ⟨pr, List.mem_filter.mpr ⟨hpr, ?_⟩, hid⟩
      have : pr.id = q := by simpa using hid
      simp [this, hq]
  refine ⟨?_, ?_, ?_, ?_, ?_, ?_, ?_⟩
  · intro m hm
    have h2 := (List.mem_filter.mp hm).2
    simpa [sqlEq_eq_false_iff] using h2
  · intro l hl
    have h2 := (List.mem_filter.mp hl).2
    simpa [sqlEq_eq_false_iff] using h2
  · intro q hq
    have h2 := (List.mem_filter.mp hq).2
    simpa using h2
  · intro m hm hne
    refine List.mem_filter.mpr ⟨hm, ?_⟩
    have : sqlEq m.project_id (some pid) = false := by
      cases hx : sqlEq m.project_id (some pid)
      · rfl
      · exact absurd ((sqlEq_some_right _ _).mp hx) hne
    simp [this]
  · intro l hl hne
    refine List.mem_filter.mpr ⟨hl, ?_⟩
    have : sqlEq l.project_id (some pid) = false := by
      cases hx : sqlEq l.project_id (some pid)
      · rfl
      · exact absurd ((sqlEq_some_right _ _).mp hx) hne
    simp [this]
  · intro m hm
    have hmem := (List.mem_filter.mp hm).1
    have hne : ¬ m.project_id = some pid := by
      have h2 := (List.mem_filter.mp hm).2
      simpa [sqlEq_eq_false_iff] using h2
    exact hfk m.project_id (hmods m hmem) hne
  · intro l hl
    have hmem := (List.mem_filter.mp hl).1
    have hne : ¬ l.project_id = some pid := by
      have h2 := (List.mem_filter.mp hl).2
      simpa [sqlEq_eq_false_iff] using h2
    exact hfk l.project_id (hmems l hmem) hne

/-- The referential-integrity scenario of the spec: project p1 with module
mRowB under it and a member link. -/
def dbP : DB :=
  { users := [⟨"u2", some "ab", "Bob", "bob@jeux.dev", "dev", "t0"⟩]
    projects := [⟨"p1", "Gateway", "React", "S1", none, "not_started", none⟩]
    project_modules := [mRowB]
    project_members := [⟨"l1", some "p1", some "u2", "member"⟩] }

/-- C9, witness: deleting project p1 from the scenario store removes its
module and member link and preserves the foreign-key invariants. -/
theorem C9_cascade_witness :
    (∀ m ∈ (deleteProject dbP "p1").project_modules, m.project_id ≠ some "p1")
    ∧ (∀ l ∈ (deleteProject dbP "p1").project_members, l.project_id ≠ some "p1")
    ∧ (∀ q ∈ (deleteProject dbP "p1").projects, q.id ≠ "p1")
    ∧ (∀ m ∈ dbP.project_modules, m.project_id ≠ some "p1" →
        m ∈ (deleteProject dbP "p1").project_modules)
    ∧ (∀ l ∈ dbP.project_members, l.project_id ≠ some "p1" →
        l ∈ (deleteProject dbP "p1").project_members)
    ∧ (∀ m ∈ (deleteProject dbP "p1").project_modules,
        referencesLive (deleteProject dbP "p1").projects m.project_id = true)
    ∧ (∀ l ∈ (deleteProject dbP "p1").project_members,
        referencesLive (deleteProject dbP "p1").projects l.project_id = true) :=
  C9_cascade_delete dbP "p1" (by decide) (by decide)

end JeuxBoard
